import Mathlib

/-!
Verification of the OpenClaw AWS installer/uninstaller reconciliation engine
(`installer.py`, `uninstaller.py`).

The remote control plane is modelled as explicit state (lists of resources),
remote failures as explicit error values, and each convergence / wait /
teardown routine as a pure Lean function that mirrors the Python source
line by line.  Wall-clock time in polling loops is modelled by the poll
counter (each `time.sleep(k)` advances elapsed time by exactly `k`).
-/

namespace OpenClaw

/-- A security group as returned by `describe_security_groups`. -/
structure SecurityGroup where
  groupName : String
  vpcId : String
  groupId : String
deriving Repr, DecidableEq

/-- An interface VPC endpoint as returned by `describe_vpc_endpoints`. -/
structure VpcEndpoint where
  vpcId : String
  serviceName : String
  endpointId : String
deriving Repr, DecidableEq

/-- The remote EC2 control-plane state visible to the installer's
get-or-create helpers: the security groups and VPC endpoints of the
account, plus a counter from which fresh identifiers are minted. -/
structure RemoteState where
  securityGroups : List SecurityGroup
  vpcEndpoints : List VpcEndpoint
  nextId : Nat
deriving Repr, DecidableEq

/-- `installer.py` `_get_or_create_sg` lookup:
`describe_security_groups(Filters=[group-name, vpc-id])`. -/
def describeSecurityGroups (st : RemoteState) (name vpcId : String) : List SecurityGroup :=
  st.securityGroups.filter (fun g => g.groupName == name && g.vpcId == vpcId)

/-- `installer.py` `_get_or_create_sg`: reuse the first described group,
otherwise create one.  Creation appends the new group to the remote state
(the remote system registers it under exactly the requested name and VPC)
and reports `true` in the third component ("a creation call was made"). -/
def getOrCreateSg (st : RemoteState) (vpcId name : String) : String × RemoteState × Bool :=
  match describeSecurityGroups st name vpcId with
  | g :: _ => (g.groupId, st, false)
  | [] =>
    let gid := "sg-" ++ toString st.nextId
    (gid,
      { st with
        securityGroups := st.securityGroups ++ [⟨name, vpcId, gid⟩],
        nextId := st.nextId + 1 },
      true)

/-- `installer.py` `_ensure_bedrock_endpoint` lookup:
`describe_vpc_endpoints(Filters=[vpc-id, service-name])`. -/
def describeVpcEndpoints (st : RemoteState) (vpcId svc : String) : List VpcEndpoint :=
  st.vpcEndpoints.filter (fun e => e.vpcId == vpcId && e.serviceName == svc)

/-- `installer.py` `_ensure_bedrock_endpoint`: reuse the first described
endpoint, otherwise create one (which registers it remotely under the
requested VPC and service name). -/
def ensureBedrockEndpoint (st : RemoteState) (vpcId svc : String) : String × RemoteState × Bool :=
  match describeVpcEndpoints st vpcId svc with
  | e :: _ => (e.endpointId, st, false)
  | [] =>
    let eid := "vpce-" ++ toString st.nextId
    (eid,
      { st with
        vpcEndpoints := st.vpcEndpoints ++ [⟨vpcId, svc, eid⟩],
        nextId := st.nextId + 1 },
      true)

/-- How a wait loop in the engine can end: the polled resource became
ready, the loop raised a timeout error, or the loop fell through and
returned normally without the resource being ready. -/
inductive WaitOutcome where
  | ready
  | raisedTimeout
  | silentReturn
deriving Repr, DecidableEq

/-- `installer.py` `_wait_nat` body: `for _ in range(60)` polls the NAT
state and returns on `"available"`, else sleeps 10s; after the loop a
`RuntimeError` is raised.  `state i` is the state string returned by the
`i`-th describe call; the second component counts polls performed. -/
def waitNatGo (state : Nat → String) : Nat → Nat → WaitOutcome × Nat
  | 0, polls => (.raisedTimeout, polls)
  | n + 1, polls =>
    if state polls = "available" then (.ready, polls + 1)
    else waitNatGo state n (polls + 1)

/-- `installer.py` `_wait_nat`: 60 polls at 10-second intervals. -/
def waitNat (state : Nat → String) : WaitOutcome × Nat :=
  waitNatGo state 60 0

/-- `installer.py` `_wait_subnet` body: `while time.time() - t0 < timeout`
polls the subnet state and returns on `"available"`, else sleeps 5s; when
the time bound expires the function returns normally (there is no raise).
Elapsed time at the top of iteration `polls` is exactly `5 * polls`, so the
loop condition is `5 * polls < timeout`.  The fuel argument equals
`timeout` at entry; the loop runs at most `⌈timeout/5⌉ ≤ timeout`
iterations, so fuel never runs out before the loop condition fails, and
the fuel-exhausted branch returns the same silent result the loop-exit
path would. -/
def waitSubnetGo (state : Nat → String) (timeout : Nat) : Nat → Nat → WaitOutcome × Nat
  | 0, polls => (.silentReturn, polls)
  | fuel + 1, polls =>
    if 5 * polls < timeout then
      if state polls = "available" then (.ready, polls + 1)
      else waitSubnetGo state timeout fuel (polls + 1)
    else (.silentReturn, polls)

/-- `installer.py` `_wait_subnet` with its default `timeout = 120`. -/
def waitSubnet (state : Nat → String) (timeout : Nat) : WaitOutcome × Nat :=
  waitSubnetGo state timeout timeout 0

theorem waitNatGo_never (state : Nat → String) (h : ∀ i, state i ≠ "available") :
    ∀ n polls, waitNatGo state n polls = (.raisedTimeout, polls + n) := by
  intro n
  induction n with
  | zero => intro polls; simp [waitNatGo]
  | succ k ih =>
    intro polls
    simp only [waitNatGo, h polls, if_neg (h polls)]
    rw [ih (polls + 1)]
    simp
    omega

theorem waitSubnetGo_never (state : Nat → String) (timeout : Nat)
    (h : ∀ i, state i ≠ "available") :
    ∀ fuel polls, waitSubnetGo state timeout fuel polls =
      (.silentReturn, min (polls + fuel) (max polls ((timeout + 4) / 5))) := by
  intro fuel
  induction fuel with
  | zero => intro polls; simp [waitSubnetGo]
  | succ k ih =>
    intro polls
    by_cases hc : 5 * polls < timeout
    · have : polls + 1 ≤ (timeout + 4) / 5 := by omega
      simp only [waitSubnetGo, if_pos hc, if_neg (h polls)]
      rw [ih (polls + 1)]
      congr 1
      omega
    · simp only [waitSubnetGo, if_neg hc]
      congr 1
      have : (timeout + 4) / 5 ≤ polls := by omega
      omega

theorem describeSecurityGroups_append_match (st : RemoteState) (name vpcId gid : String) :
    describeSecurityGroups
      { st with securityGroups := st.securityGroups ++ [⟨name, vpcId, gid⟩],
                nextId := st.nextId + 1 } name vpcId
      = describeSecurityGroups st name vpcId ++ [⟨name, vpcId, gid⟩] := by
  simp [describeSecurityGroups, List.filter_append]

theorem describeVpcEndpoints_append_match (st : RemoteState) (vpcId svc eid : String) :
    describeVpcEndpoints
      { st with vpcEndpoints := st.vpcEndpoints ++ [⟨vpcId, svc, eid⟩],
                nextId := st.nextId + 1 } vpcId svc
      = describeVpcEndpoints st vpcId svc ++ [⟨vpcId, svc, eid⟩] := by
  simp [describeVpcEndpoints, List.filter_append]

/-- C1: for both get-or-create convergence operations (`_get_or_create_sg`
and `_ensure_bedrock_endpoint`), running the operation a second time with
identical inputs against the state left by the first run yields the same
identifier, performs no creation call (the reuse path is taken, so creation
happened at most once across the two runs), and does not change the remote
state — and it does not fail (the result is total). -/
theorem C1_get_or_create_idempotent (st : RemoteState) (vpcId name svc : String) :
    ((getOrCreateSg (getOrCreateSg st vpcId name).2.1 vpcId name).1
        = (getOrCreateSg st vpcId name).1 ∧
      (getOrCreateSg (getOrCreateSg st vpcId name).2.1 vpcId name).2.2 = false ∧
      (getOrCreateSg (getOrCreateSg st vpcId name).2.1 vpcId name).2.1
        = (getOrCreateSg st vpcId name).2.1) ∧
    ((ensureBedrockEndpoint (ensureBedrockEndpoint st vpcId svc).2.1 vpcId svc).1
        = (ensureBedrockEndpoint st vpcId svc).1 ∧
      (ensureBedrockEndpoint (ensureBedrockEndpoint st vpcId svc).2.1 vpcId svc).2.2 = false ∧
      (ensureBedrockEndpoint (ensureBedrockEndpoint st vpcId svc).2.1 vpcId svc).2.1
        = (ensureBedrockEndpoint st vpcId svc).2.1) := by
  constructor
  · cases h : describeSecurityGroups st name vpcId with
    | cons g rest =>
      have e1 : getOrCreateSg st vpcId name = (g.groupId, st, false) := by
        simp [getOrCreateSg, h]
      rw [e1]
      simp [getOrCreateSg, h]
    | nil =>
      have e1 : getOrCreateSg st vpcId name =
          ("sg-" ++ toString st.nextId,
            { st with
              securityGroups :=
                st.securityGroups ++ [⟨name, vpcId, "sg-" ++ toString st.nextId⟩],
              nextId := st.nextId + 1 }, true) := by
        simp [getOrCreateSg, h]
      have e2 : describeSecurityGroups
          { st with
            securityGroups :=
              st.securityGroups ++ [⟨name, vpcId, "sg-" ++ toString st.nextId⟩],
            nextId := st.nextId + 1 } name vpcId
          = [⟨name, vpcId, "sg-" ++ toString st.nextId⟩] := by
        rw [describeSecurityGroups_append_match, h]
        simp
      rw [e1]
      simp [getOrCreateSg, e2]
  · cases h : describeVpcEndpoints st vpcId svc with
    | cons e rest =>
      have e1 : ensureBedrockEndpoint st vpcId svc = (e.endpointId, st, false) := by
        simp [ensureBedrockEndpoint, h]
      rw [e1]
      simp [ensureBedrockEndpoint, h]
    | nil =>
      have e1 : ensureBedrockEndpoint st vpcId svc =
          ("vpce-" ++ toString st.nextId,
            { st with
              vpcEndpoints :=
                st.vpcEndpoints ++ [⟨vpcId, svc, "vpce-" ++ toString st.nextId⟩],
              nextId := st.nextId + 1 }, true) := by
        simp [ensureBedrockEndpoint, h]
      have e2 : describeVpcEndpoints
          { st with
            vpcEndpoints :=
              st.vpcEndpoints ++ [⟨vpcId, svc, "vpce-" ++ toString st.nextId⟩],
            nextId := st.nextId + 1 } vpcId svc
          = [⟨vpcId, svc, "vpce-" ++ toString st.nextId⟩] := by
        rw [describeVpcEndpoints_append_match, h]
        simp
      rw [e1]
      simp [ensureBedrockEndpoint, e2]

/-- C2 counterexample: `_wait_subnet` polled against a subnet that never
becomes available performs its bounded 24 polls (120-second limit at
5-second intervals) and then RETURNS NORMALLY — it never raises a timeout
error, contradicting the claim that every wait loop in the engine raises a
typed timeout error rather than returning silently. -/
theorem C2_counterexample_wait_subnet_silent :
    waitSubnet (fun _ => "pending") 120 = (WaitOutcome.silentReturn, 24) ∧
    WaitOutcome.silentReturn ≠ WaitOutcome.raisedTimeout := by
  exact ⟨by decide, by decide⟩

/-- C2 (amended): every wait loop among the cited ones is bounded, and on a
resource that never becomes ready it performs exactly its maximum number of
polls — `_wait_nat` exactly 60 polls followed by a raised `RuntimeError`,
`_wait_subnet` exactly 24 polls (120-second limit, 5-second interval) —
but `_wait_subnet` then returns normally instead of raising a typed
timeout error; only `_wait_nat` raises. -/
theorem C2_amended_bounded_waits (state : Nat → String)
    (h : ∀ i, state i ≠ "available") :
    waitNat state = (WaitOutcome.raisedTimeout, 60) ∧
    waitSubnet state 120 = (WaitOutcome.silentReturn, 24) := by
  constructor
  · rw [waitNat, waitNatGo_never state h]
  · rw [waitSubnet, waitSubnetGo_never state 120 h]
    norm_num

/-- Witness for C2 (amended): the never-ready predicate instantiated with
the constant state `"pending"`. -/
theorem C2_amended_bounded_waits_witness :
    waitNat (fun _ => "pending") = (WaitOutcome.raisedTimeout, 60) ∧
    waitSubnet (fun _ => "pending") 120 = (WaitOutcome.silentReturn, 24) :=
  C2_amended_bounded_waits (fun _ => "pending")
    (by intro i; show "pending" ≠ "available"; decide)

/-- Result of a Python call against the remote control plane: a normal
return, or a raised `ClientError` carrying its error code. -/
inductive PyResult (α : Type) where
  | ok : α → PyResult α
  | err : String → PyResult α
deriving Repr, DecidableEq

/-- `installer.py` `_safe_create`: call `create_fn`; if it raises a
`ClientError` whose code equals `already_code`, log a warning and return
`None`; any other `ClientError` is re-raised. -/
def safeCreate (createFn : PyResult String) (alreadyCode : String) : PyResult (Option String) :=
  match createFn with
  | .ok v => .ok (some v)
  | .err code => if code = alreadyCode then .ok none else .err code

/-- The convergence primitive as the SPEC describes it (spec-side
definition, for comparison with `safeCreate`): "if creation fails with an
'already exists' class of error, re-run the lookup once ... and return the
identifier found there"; other failures propagate. -/
def ensureSpecOnCreate (createFn : PyResult String) (alreadyCode : String)
    (relookup : Option String) : PyResult (Option String) :=
  match createFn with
  | .ok v => .ok (some v)
  | .err code => if code = alreadyCode then .ok relookup else .err code

/-- `installer.py` `_ensure_iam`, role-creation step: `create_role` inside
`try`; a `ClientError` with code `EntityAlreadyExists` is swallowed (the
function proceeds with the known `role_name`); any other code re-raises.
`createOutcome = none` models a successful creation; `some code` models a
`ClientError` with that code. -/
def ensureIamRoleCreate (createOutcome : Option String) (roleName : String) : PyResult String :=
  match createOutcome with
  | none => .ok roleName
  | some code => if code = "EntityAlreadyExists" then .ok roleName else .err code

/-- C3 counterexample: when creation fails with the "already exists" error,
`_safe_create` does NOT re-run the lookup and return the identifier found
there — it swallows the error and returns `None`, even when a re-run of
the lookup would have found identifier `"sg-123"` (as the spec-side
primitive `ensureSpecOnCreate` does). -/
theorem C3_counterexample_no_relookup :
    safeCreate (PyResult.err "InvalidGroup.Duplicate") "InvalidGroup.Duplicate"
      = PyResult.ok none ∧
    ensureSpecOnCreate (PyResult.err "InvalidGroup.Duplicate") "InvalidGroup.Duplicate"
      (some "sg-123") = PyResult.ok (some "sg-123") ∧
    (PyResult.ok (none : Option String)) ≠ PyResult.ok (some "sg-123") := by
  refine ⟨by decide, by decide, by decide⟩

/-- C3 (amended): when a creation call fails with the "already exists"
class of error, the operation swallows the error and continues without any
re-run of the lookup — `_safe_create` returns no identifier (`None`), and
`_ensure_iam` proceeds with the already-known role name; any creation
failure of a different class propagates to the caller as a fatal error. -/
theorem C3_amended_already_exists_swallowed (v code alreadyCode roleName : String) :
    safeCreate (PyResult.ok v) alreadyCode = PyResult.ok (some v) ∧
    safeCreate (PyResult.err alreadyCode) alreadyCode = PyResult.ok none ∧
    (code ≠ alreadyCode →
      safeCreate (PyResult.err code) alreadyCode = PyResult.err code) ∧
    ensureIamRoleCreate none roleName = PyResult.ok roleName ∧
    ensureIamRoleCreate (some "EntityAlreadyExists") roleName = PyResult.ok roleName ∧
    (code ≠ "EntityAlreadyExists" →
      ensureIamRoleCreate (some code) roleName = PyResult.err code) := by
  refine ⟨rfl, by simp [safeCreate], ?_, rfl, by simp [ensureIamRoleCreate], ?_⟩
  · intro hne
    simp [safeCreate, hne]
  · intro hne
    simp [ensureIamRoleCreate, hne]

/-- Witness for C3 (amended), instantiated at concrete inputs with the
non-matching error code `"AccessDenied"`. -/
theorem C3_amended_already_exists_swallowed_witness :
    safeCreate (PyResult.ok "sg-1") "InvalidGroup.Duplicate" = PyResult.ok (some "sg-1") ∧
    safeCreate (PyResult.err "InvalidGroup.Duplicate") "InvalidGroup.Duplicate"
      = PyResult.ok none ∧
    safeCreate (PyResult.err "AccessDenied") "InvalidGroup.Duplicate"
      = PyResult.err "AccessDenied" ∧
    ensureIamRoleCreate none "openclaw-bedrock-role" = PyResult.ok "openclaw-bedrock-role" ∧
    ensureIamRoleCreate (some "EntityAlreadyExists") "openclaw-bedrock-role"
      = PyResult.ok "openclaw-bedrock-role" ∧
    ensureIamRoleCreate (some "AccessDenied") "openclaw-bedrock-role"
      = PyResult.err "AccessDenied" := by
  have h := C3_amended_already_exists_swallowed "sg-1" "AccessDenied"
    "InvalidGroup.Duplicate" "openclaw-bedrock-role"
  exact ⟨h.1, h.2.1, h.2.2.1 (by decide), h.2.2.2.1, h.2.2.2.2.1, h.2.2.2.2.2 (by decide)⟩

/-- Outcome of one `delete_vpc` call, as classified by the `except` clause
of `uninstaller.py` `_delete_single_vpc` step 9. -/
inductive VpcDeleteOutcome where
  | ok
  | notFound
  | depViolation
  | otherErr (code : String)
deriving Repr, DecidableEq

/-- How `_delete_single_vpc` step 9 finishes. -/
inductive VpcDeleteResult where
  | deleted
  | alreadyGone
  | gaveUp
deriving Repr, DecidableEq

/-- Observable record of a run of `_delete_single_vpc` step 9: the final
outcome, the number of `delete_vpc` calls issued, the backoff sleeps
performed between retries, and whether `_log_remaining_vpc_dependencies`
was invoked on the final (give-up) path. -/
structure VpcDeleteRun where
  result : VpcDeleteResult
  attempts : Nat
  delays : List Nat
  finalReport : Bool
deriving Repr, DecidableEq

/-- `uninstaller.py` `_delete_single_vpc` step 9: `for attempt in range(5)`
attempt `delete_vpc`; success returns; `InvalidVpcID.NotFound` returns;
`DependencyViolation` with `attempt < 4` logs the remaining dependencies,
sleeps `15 * (attempt + 1)` seconds and retries; any other error (or a
`DependencyViolation` on the last attempt) logs the remaining dependencies,
warns, and returns without raising.  `outcome i` is what the `i`-th
`delete_vpc` call does.  The fuel argument is `4 - attempt` at entry of
every reachable call, so the fuel-exhausted inner branch (which mirrors the
give-up path) is never reached from `deleteVpcRetry`. -/
def deleteVpcRetryGo (outcome : Nat → VpcDeleteOutcome) :
    Nat → Nat → List Nat → VpcDeleteRun
  | 0, attempt, delays =>
    match outcome attempt with
    | .ok => ⟨.deleted, attempt + 1, delays, false⟩
    | .notFound => ⟨.alreadyGone, attempt + 1, delays, false⟩
    | .depViolation => ⟨.gaveUp, attempt + 1, delays, true⟩
    | .otherErr _ => ⟨.gaveUp, attempt + 1, delays, true⟩
  | fuel + 1, attempt, delays =>
    match outcome attempt with
    | .ok => ⟨.deleted, attempt + 1, delays, false⟩
    | .notFound => ⟨.alreadyGone, attempt + 1, delays, false⟩
    | .depViolation =>
      if attempt < 4 then
        deleteVpcRetryGo outcome fuel (attempt + 1) (delays ++ [15 * (attempt + 1)])
      else ⟨.gaveUp, attempt + 1, delays, true⟩
    | .otherErr _ => ⟨.gaveUp, attempt + 1, delays, true⟩

/-- `_delete_single_vpc` step 9 entry point. -/
def deleteVpcRetry (outcome : Nat → VpcDeleteOutcome) : VpcDeleteRun :=
  deleteVpcRetryGo outcome 4 0 []

/-- Remote resources still inside a VPC, as seen by the describe calls of
`_log_remaining_vpc_dependencies`: subnet ids, security groups as
(group-name, group-id), network-interface ids, endpoints as (id, state). -/
structure VpcDependencyState where
  subnets : List String
  securityGroups : List (String × String)
  enis : List String
  endpoints : List (String × String)
deriving Repr, DecidableEq

/-- What `_log_remaining_vpc_dependencies` reports, per category. -/
structure DependencyReport where
  subnets : List String
  securityGroups : List String
  enis : List String
  endpoints : List String
deriving Repr, DecidableEq

/-- `uninstaller.py` `_log_remaining_vpc_dependencies`: warn with every
remaining subnet, every non-default security group, every network
interface, and every endpoint not in state `deleted`/`failed`. -/
def logRemainingVpcDependencies (st : VpcDependencyState) : DependencyReport :=
  { subnets := st.subnets
    securityGroups := (st.securityGroups.filter (fun sg => sg.1 != "default")).map (fun sg => sg.2)
    enis := st.enis
    endpoints :=
      (st.endpoints.filter (fun ep => ep.2 != "deleted" && ep.2 != "failed")).map
        (fun ep => ep.1) }

theorem deleteVpcRetryGo_attempts_le (outcome : Nat → VpcDeleteOutcome) :
    ∀ fuel attempt delays,
      (deleteVpcRetryGo outcome fuel attempt delays).attempts ≤ attempt + 1 + fuel := by
  intro fuel
  induction fuel with
  | zero =>
    intro attempt delays
    cases h : outcome attempt <;> simp [deleteVpcRetryGo, h]
  | succ f ih =>
    intro attempt delays
    cases h : outcome attempt <;> simp [deleteVpcRetryGo, h]
    split
    · have := ih (attempt + 1) (delays ++ [15 * (attempt + 1)])
      omega
    · simp

theorem deleteVpcRetryGo_delays_sorted (outcome : Nat → VpcDeleteOutcome) :
    ∀ fuel attempt delays,
      delays.Pairwise (· < ·) →
      (∀ d ∈ delays, d < 15 * (attempt + 1)) →
      (deleteVpcRetryGo outcome fuel attempt delays).delays.Pairwise (· < ·) := by
  intro fuel
  induction fuel with
  | zero =>
    intro attempt delays hp _
    cases h : outcome attempt <;> simp [deleteVpcRetryGo, h] <;> exact hp
  | succ f ih =>
    intro attempt delays hp hb
    cases h : outcome attempt <;> simp [deleteVpcRetryGo, h]
    · exact hp
    · exact hp
    · split
      · apply ih
        · rw [List.pairwise_append]
          refine ⟨hp, List.pairwise_singleton _ _, ?_⟩
          intro a ha b hb'
          simp at hb'
          subst hb'
          exact hb a ha
        · intro d hd
          rcases List.mem_append.mp hd with hd1 | hd2
          · have := hb d hd1
            omega
          · simp at hd2
            omega
      · exact hp
    · exact hp

theorem deleteVpcRetryGo_gaveUp_report (outcome : Nat → VpcDeleteOutcome) :
    ∀ fuel attempt delays,
      (deleteVpcRetryGo outcome fuel attempt delays).result = .gaveUp →
      (deleteVpcRetryGo outcome fuel attempt delays).finalReport = true := by
  intro fuel
  induction fuel with
  | zero =>
    intro attempt delays
    cases h : outcome attempt <;> simp [deleteVpcRetryGo, h]
  | succ f ih =>
    intro attempt delays
    cases h : outcome attempt <;> simp [deleteVpcRetryGo, h]
    split
    · exact ih (attempt + 1) _
    · simp

/-- C4: fabric (VPC) deletion in `_delete_single_vpc` is retried a bounded
number of times (at most 5 `delete_vpc` calls), the backoff sleeps between
retries are strictly increasing, a run that gives up always reports the
remaining dependencies and returns normally (never raises — every branch
of the model produces a value), a run in which every attempt is refused
with `DependencyViolation` performs exactly the 5 bounded attempts with
backoffs 15, 30, 45, 60 and gives up with a final dependency report, and
the dependency report enumerates every remaining subnet, non-default
security group, network interface, and live endpoint. -/
theorem C4_vpc_delete_bounded_backoff_report (outcome : Nat → VpcDeleteOutcome)
    (dep : VpcDependencyState) :
    (deleteVpcRetry outcome).attempts ≤ 5 ∧
    (deleteVpcRetry outcome).delays.Pairwise (· < ·) ∧
    ((deleteVpcRetry outcome).result = .gaveUp →
      (deleteVpcRetry outcome).finalReport = true) ∧
    ((∀ i, outcome i = .depViolation) →
      deleteVpcRetry outcome = ⟨.gaveUp, 5, [15, 30, 45, 60], true⟩) ∧
    (∀ s ∈ dep.subnets, s ∈ (logRemainingVpcDependencies dep).subnets) ∧
    (∀ sg ∈ dep.securityGroups, sg.1 ≠ "default" →
      sg.2 ∈ (logRemainingVpcDependencies dep).securityGroups) ∧
    (∀ e ∈ dep.enis, e ∈ (logRemainingVpcDependencies dep).enis) ∧
    (∀ ep ∈ dep.endpoints, ep.2 ≠ "deleted" → ep.2 ≠ "failed" →
      ep.1 ∈ (logRemainingVpcDependencies dep).endpoints) := by
  refine ⟨?_, ?_, ?_, ?_, ?_, ?_, ?_, ?_⟩
  · have := deleteVpcRetryGo_attempts_le outcome 4 0 []
    simpa [deleteVpcRetry] using this
  · exact deleteVpcRetryGo_delays_sorted outcome 4 0 [] (by simp) (by simp)
  · exact deleteVpcRetryGo_gaveUp_report outcome 4 0 []
  · intro h
    simp [deleteVpcRetry, deleteVpcRetryGo, h]
  · intro s hs
    simpa [logRemainingVpcDependencies] using hs
  · intro sg hsg hname
    refine List.mem_map.mpr ⟨sg, List.mem_filter.mpr ⟨hsg, ?_⟩, rfl⟩
    simpa using hname
  · intro e he
    simpa [logRemainingVpcDependencies] using he
  · intro ep hep h1 h2
    refine List.mem_map.mpr ⟨ep, List.mem_filter.mpr ⟨hep, ?_⟩, rfl⟩
    simp [h1, h2]

/-- Witness for C4: a VPC whose deletion is refused with
`DependencyViolation` on every attempt, with one remaining subnet, one
non-default security group, one network interface and one live endpoint. -/
theorem C4_vpc_delete_bounded_backoff_report_witness :
    deleteVpcRetry (fun _ => VpcDeleteOutcome.depViolation)
      = ⟨VpcDeleteResult.gaveUp, 5, [15, 30, 45, 60], true⟩ ∧
    "subnet-1" ∈ (logRemainingVpcDependencies
      ⟨["subnet-1"], [("openclaw-ec2-sg", "sg-9")], ["eni-3"],
        [("vpce-7", "available")]⟩).subnets ∧
    "sg-9" ∈ (logRemainingVpcDependencies
      ⟨["subnet-1"], [("openclaw-ec2-sg", "sg-9")], ["eni-3"],
        [("vpce-7", "available")]⟩).securityGroups ∧
    "eni-3" ∈ (logRemainingVpcDependencies
      ⟨["subnet-1"], [("openclaw-ec2-sg", "sg-9")], ["eni-3"],
        [("vpce-7", "available")]⟩).enis ∧
    "vpce-7" ∈ (logRemainingVpcDependencies
      ⟨["subnet-1"], [("openclaw-ec2-sg", "sg-9")], ["eni-3"],
        [("vpce-7", "available")]⟩).endpoints := by
  have h := C4_vpc_delete_bounded_backoff_report (fun _ => VpcDeleteOutcome.depViolation)
    ⟨["subnet-1"], [("openclaw-ec2-sg", "sg-9")], ["eni-3"], [("vpce-7", "available")]⟩
  refine ⟨h.2.2.2.1 (fun i => rfl), ?_, ?_, ?_, ?_⟩
  · exact h.2.2.2.2.1 "subnet-1" (by decide)
  · exact h.2.2.2.2.2.1 ("openclaw-ec2-sg", "sg-9") (by decide) (by decide)
  · exact h.2.2.2.2.2.2.1 "eni-3" (by decide)
  · exact h.2.2.2.2.2.2.2 ("vpce-7", "available") (by decide) (by decide) (by decide)

/-- The shared round-retry loop shape of `uninstaller.py`
`_delete_subnets_with_retry` and `_delete_security_groups_with_retry`:
`for round_idx in range(max_rounds)` describe the remaining resources,
return if none are left, attempt to delete each one (counting the blocked
ones), return if nothing was blocked, else sleep and run the next round.
`blockedp roundIdx x = true` means the delete call for `x` raises a
`ClientError` in that round.  A successful delete removes the resource
remotely and a blocked one leaves it, so the next round's describe returns
exactly the blocked resources.  Returns the executed rounds — pairs of
(round index, resources whose deletion was attempted in that round) — and
the resources still present when the loop ends. -/
def roundsRetryGo {α : Type} (blockedp : Nat → α → Bool) :
    Nat → Nat → List α → List (Nat × List α) × List α
  | 0, _, items => ([], items)
  | fuel + 1, roundIdx, items =>
    if items.isEmpty then ([], items)
    else
      let blocked := items.filter (blockedp roundIdx)
      if blocked.isEmpty then ([(roundIdx, items)], [])
      else
        let rest := roundsRetryGo blockedp fuel (roundIdx + 1) blocked
        ((roundIdx, items) :: rest.1, rest.2)

/-- `uninstaller.py` `_delete_subnets_with_retry` (called with
`max_rounds=6`): the round loop over the VPC's subnet ids. -/
def deleteSubnetsRetry (fails : Nat → String → Bool) (maxRounds : Nat)
    (subs : List String) : List (Nat × List String) × List String :=
  roundsRetryGo fails maxRounds 0 subs

/-- `uninstaller.py` `_delete_security_groups_with_retry` (called with
`max_rounds=6`): each round describes all of the VPC's security groups as
(group-name, group-id) pairs, skips the `default` group, revokes the rules
of each custom group (rule revocation does not change the set of groups and
is not tracked here) and attempts to delete it.  The remote state keeps the
default groups plus the blocked custom groups for the next round's
describe. -/
def deleteSgsRetryGo (fails : Nat → String → Bool) :
    Nat → Nat → List (String × String) →
      List (Nat × List (String × String)) × List (String × String)
  | 0, _, sgs => ([], sgs)
  | fuel + 1, roundIdx, sgs =>
    let customSgs := sgs.filter (fun sg => sg.1 != "default")
    if customSgs.isEmpty then ([], sgs)
    else
      let blocked := customSgs.filter (fun sg => fails roundIdx sg.2)
      if blocked.isEmpty then
        ([(roundIdx, customSgs)], sgs.filter (fun sg => sg.1 == "default"))
      else
        let rest := deleteSgsRetryGo fails fuel (roundIdx + 1)
          (sgs.filter (fun sg => sg.1 == "default" || fails roundIdx sg.2))
        ((roundIdx, customSgs) :: rest.1, rest.2)

/-- `_delete_security_groups_with_retry` entry point. -/
def deleteSgsRetry (fails : Nat → String → Bool) (maxRounds : Nat)
    (sgs : List (String × String)) :
    List (Nat × List (String × String)) × List (String × String) :=
  deleteSgsRetryGo fails maxRounds 0 sgs

/-- The resources still blocked after `j` rounds, starting from round `r`
on `items`: round `r + j` attempts exactly `iterBlocked blockedp r items j`. -/
def iterBlocked {α : Type} (blockedp : Nat → α → Bool) (r : Nat) (items : List α) :
    Nat → List α
  | 0 => items
  | j + 1 => (iterBlocked blockedp r items j).filter (blockedp (r + j))

theorem iterBlocked_shift {α : Type} (blockedp : Nat → α → Bool) (r : Nat)
    (items : List α) :
    ∀ j, iterBlocked blockedp (r + 1) (items.filter (blockedp r)) j
      = iterBlocked blockedp r items (j + 1) := by
  intro j
  induction j with
  | zero => simp [iterBlocked]
  | succ k ih =>
    show (iterBlocked blockedp (r + 1) (items.filter (blockedp r)) k).filter _ = _
    rw [ih]
    show _ = (iterBlocked blockedp r items (k + 1)).filter (blockedp (r + (k + 1)))
    have h1 : r + 1 + k = r + (k + 1) := by omega
    rw [h1]

theorem roundsRetryGo_length {α : Type} (blockedp : Nat → α → Bool) :
    ∀ fuel r items, (roundsRetryGo blockedp fuel r items).1.length ≤ fuel := by
  intro fuel
  induction fuel with
  | zero => intro r items; simp [roundsRetryGo]
  | succ f ih =>
    intro r items
    simp only [roundsRetryGo]
    split
    · simp
    · split
      · simp
      · simpa using ih (r + 1) _

theorem roundsRetryGo_mem {α : Type} (blockedp : Nat → α → Bool) :
    ∀ fuel r items i l, (i, l) ∈ (roundsRetryGo blockedp fuel r items).1 →
      r ≤ i ∧ i < r + fuel ∧ l = iterBlocked blockedp r items (i - r) ∧ l ≠ [] := by
  intro fuel
  induction fuel with
  | zero => intro r items i l h; simp [roundsRetryGo] at h
  | succ f ih =>
    intro r items i l h
    simp only [roundsRetryGo] at h
    by_cases hs : items.isEmpty
    · rw [if_pos hs] at h
      simp at h
    · rw [if_neg hs] at h
      by_cases hb : (items.filter (blockedp r)).isEmpty
      · rw [if_pos hb] at h
        simp at h
        obtain ⟨hi, hl⟩ := h
        refine ⟨by omega, by omega, ?_, by rw [hl]; simpa using hs⟩
        rw [hl, hi]
        simp [iterBlocked]
      · rw [if_neg hb] at h
        simp only [List.mem_cons] at h
        rcases h with h | h
        · obtain ⟨hi, hl⟩ := Prod.mk.inj h
          refine ⟨by omega, by omega, ?_, by rw [hl]; simpa using hs⟩
          rw [hl, hi]
          simp [iterBlocked]
        · obtain ⟨h1, h2, h3, h4⟩ := ih (r + 1) _ i l h
          refine ⟨by omega, by omega, ?_, h4⟩
          rw [h3, iterBlocked_shift]
          have h5 : i - (r + 1) + 1 = i - r := by omega
          rw [h5]

theorem roundsRetryGo_head {α : Type} (blockedp : Nat → α → Bool)
    (fuel r : Nat) (items : List α) (hne : ¬ items.isEmpty) (hf : 0 < fuel) :
    (r, items) ∈ (roundsRetryGo blockedp fuel r items).1 := by
  cases fuel with
  | zero => omega
  | succ f =>
    simp only [roundsRetryGo]
    rw [if_neg hne]
    by_cases hb : (items.filter (blockedp r)).isEmpty
    · rw [if_pos hb]; simp
    · rw [if_neg hb]; simp

theorem roundsRetryGo_next {α : Type} (blockedp : Nat → α → Bool) :
    ∀ fuel r items i l, (i, l) ∈ (roundsRetryGo blockedp fuel r items).1 →
      ¬ (l.filter (blockedp i)).isEmpty →
      i + 1 < r + fuel →
      ∃ l', (i + 1, l') ∈ (roundsRetryGo blockedp fuel r items).1 := by
  intro fuel
  induction fuel with
  | zero => intro r items i l h; simp [roundsRetryGo] at h
  | succ f ih =>
    intro r items i l h hbl hlt
    simp only [roundsRetryGo] at h ⊢
    by_cases hs : items.isEmpty
    · rw [if_pos hs] at h
      simp at h
    · rw [if_neg hs] at h ⊢
      by_cases hb : (items.filter (blockedp r)).isEmpty
      · rw [if_pos hb] at h
        simp at h
        obtain ⟨hi, hl⟩ := h
        rw [hi, hl] at hbl
        exact absurd hb hbl
      · rw [if_neg hb] at h ⊢
        simp only [List.mem_cons] at h
        rcases h with h | h
        · obtain ⟨hi, hl⟩ := Prod.mk.inj h
          rw [hi, hl] at hbl
          refine ⟨items.filter (blockedp r), ?_⟩
          simp only [List.mem_cons]
          right
          rw [hi]
          exact roundsRetryGo_head blockedp f (r + 1) _ hbl (by omega)
        · obtain ⟨l', hl'⟩ := ih (r + 1) _ i l h hbl (by omega)
          exact ⟨l', by simp only [List.mem_cons]; right; exact hl'⟩

theorem sgs_custom_of_next (fails : Nat → String → Bool) (r : Nat)
    (sgs : List (String × String)) :
    (sgs.filter (fun sg => sg.1 == "default" || fails r sg.2)).filter
        (fun sg => sg.1 != "default")
      = (sgs.filter (fun sg => sg.1 != "default")).filter (fun sg => fails r sg.2) := by
  rw [List.filter_comm]
  apply List.filter_congr
  intro sg hsg
  have hd : (sg.1 == "default") = false := by
    simpa using (List.mem_filter.mp hsg).2
  simp [hd]

/-- The security-group round loop produces the same round log as the
generic round loop run on the custom (non-default) groups, with a group
blocked when its delete call fails on its group id. -/
theorem deleteSgsRetryGo_rounds (fails : Nat → String → Bool) :
    ∀ fuel r sgs,
      (deleteSgsRetryGo fails fuel r sgs).1
        = (roundsRetryGo (fun j sg => fails j sg.2) fuel r
            (sgs.filter (fun sg => sg.1 != "default"))).1 := by
  intro fuel
  induction fuel with
  | zero => intro r sgs; simp [deleteSgsRetryGo, roundsRetryGo]
  | succ f ih =>
    intro r sgs
    simp only [deleteSgsRetryGo, roundsRetryGo]
    by_cases hcu : (sgs.filter (fun sg => sg.1 != "default")).isEmpty
    · rw [if_pos hcu, if_pos hcu]
    · rw [if_neg hcu, if_neg hcu]
      by_cases hb : ((sgs.filter (fun sg => sg.1 != "default")).filter
          (fun sg => fails r sg.2)).isEmpty
      · rw [if_pos hb, if_pos hb]
      · rw [if_neg hb, if_neg hb]
        simp only [List.cons.injEq, true_and]
        rw [ih (r + 1) _, sgs_custom_of_next]

theorem roundsRetry_claim {α : Type} (blockedp : Nat → α → Bool) (maxRounds : Nat)
    (items : List α) :
    (roundsRetryGo blockedp maxRounds 0 items).1.length ≤ maxRounds ∧
    (∀ i l, (i, l) ∈ (roundsRetryGo blockedp maxRounds 0 items).1 → i < maxRounds) ∧
    (∀ i l l', (i, l) ∈ (roundsRetryGo blockedp maxRounds 0 items).1 →
      (i + 1, l') ∈ (roundsRetryGo blockedp maxRounds 0 items).1 →
      ∀ x ∈ l, blockedp i x = true → x ∈ l') ∧
    (∀ i l, (i, l) ∈ (roundsRetryGo blockedp maxRounds 0 items).1 →
      l ≠ [] → (∀ x ∈ l, blockedp i x = true) → i + 1 < maxRounds →
      ∃ l', (i + 1, l') ∈ (roundsRetryGo blockedp maxRounds 0 items).1) := by
  refine ⟨roundsRetryGo_length blockedp maxRounds 0 items, ?_, ?_, ?_⟩
  · intro i l h
    have := (roundsRetryGo_mem blockedp maxRounds 0 items i l h).2.1
    omega
  · intro i l l' h h' x hx hbx
    obtain ⟨_, _, h3, _⟩ := roundsRetryGo_mem blockedp maxRounds 0 items i l h
    obtain ⟨_, _, h3', _⟩ := roundsRetryGo_mem blockedp maxRounds 0 items (i + 1) l' h'
    rw [h3']
    have hi1 : i + 1 - 0 = (i - 0) + 1 := by omega
    rw [hi1]
    show x ∈ (iterBlocked blockedp 0 items (i - 0)).filter (blockedp (0 + (i - 0)))
    rw [← h3]
    refine List.mem_filter.mpr ⟨hx, ?_⟩
    have h0 : 0 + (i - 0) = i := by omega
    rw [h0]
    exact hbx
  · intro i l h hne hall hlt
    apply roundsRetryGo_next blockedp maxRounds 0 items i l h _ (by omega)
    have hself : l.filter (blockedp i) = l := List.filter_eq_self.mpr hall
    rw [hself]
    simpa using hne

/-- C5: subnet and security-group teardown proceeds in repeated rounds
bounded by the fixed round limit (`max_rounds`): the number of executed
rounds never exceeds the limit and every executed round's index is below
it (the loop always terminates within the limit); a resource whose
deletion fails in round `i` is attempted again whenever round `i + 1`
executes; and a round with remaining resources in which zero deletions
succeed (every attempt is blocked) does not end the loop early — the next
round is executed whenever the round limit still allows it. -/
theorem C5_rounds_retry_subnets_and_sgs (fails sgFails : Nat → String → Bool)
    (maxRounds : Nat) (subs : List String) (sgs : List (String × String)) :
    ((deleteSubnetsRetry fails maxRounds subs).1.length ≤ maxRounds ∧
      (∀ i l, (i, l) ∈ (deleteSubnetsRetry fails maxRounds subs).1 → i < maxRounds) ∧
      (∀ i l l', (i, l) ∈ (deleteSubnetsRetry fails maxRounds subs).1 →
        (i + 1, l') ∈ (deleteSubnetsRetry fails maxRounds subs).1 →
        ∀ s ∈ l, fails i s = true → s ∈ l') ∧
      (∀ i l, (i, l) ∈ (deleteSubnetsRetry fails maxRounds subs).1 →
        l ≠ [] → (∀ s ∈ l, fails i s = true) → i + 1 < maxRounds →
        ∃ l', (i + 1, l') ∈ (deleteSubnetsRetry fails maxRounds subs).1)) ∧
    ((deleteSgsRetry sgFails maxRounds sgs).1.length ≤ maxRounds ∧
      (∀ i l, (i, l) ∈ (deleteSgsRetry sgFails maxRounds sgs).1 → i < maxRounds) ∧
      (∀ i l l', (i, l) ∈ (deleteSgsRetry sgFails maxRounds sgs).1 →
        (i + 1, l') ∈ (deleteSgsRetry sgFails maxRounds sgs).1 →
        ∀ sg ∈ l, sgFails i sg.2 = true → sg ∈ l') ∧
      (∀ i l, (i, l) ∈ (deleteSgsRetry sgFails maxRounds sgs).1 →
        l ≠ [] → (∀ sg ∈ l, sgFails i sg.2 = true) → i + 1 < maxRounds →
        ∃ l', (i + 1, l') ∈ (deleteSgsRetry sgFails maxRounds sgs).1)) := by
  constructor
  · exact roundsRetry_claim fails maxRounds subs
  · have hrw : (deleteSgsRetry sgFails maxRounds sgs).1
        = (roundsRetryGo (fun j sg => sgFails j sg.2) maxRounds 0
            (sgs.filter (fun sg => sg.1 != "default"))).1 :=
      deleteSgsRetryGo_rounds sgFails maxRounds 0 sgs
    rw [hrw]
    exact roundsRetry_claim (fun j sg => sgFails j sg.2) maxRounds
      (sgs.filter (fun sg => sg.1 != "default"))

/-- Witness for C5: one subnet and one custom security group whose
deletion is blocked in round 0 and succeeds in round 1 (round limit 6):
both are re-attempted in round 1, and the zero-success round 0 does not
end the loop. -/
theorem C5_rounds_retry_subnets_and_sgs_witness :
    (deleteSubnetsRetry (fun r _ => decide (r = 0)) 6 ["subnet-a"]).1.length ≤ 6 ∧
    "subnet-a" ∈ (["subnet-a"] : List String) ∧
    (∃ l', (1, l') ∈ (deleteSubnetsRetry (fun r _ => decide (r = 0)) 6 ["subnet-a"]).1) ∧
    ("openclaw-ec2-sg", "sg-9") ∈ ([("openclaw-ec2-sg", "sg-9")] : List (String × String)) ∧
    (∃ l', (1, l') ∈ (deleteSgsRetry (fun r _ => decide (r = 0)) 6
      [("openclaw-ec2-sg", "sg-9"), ("default", "sg-0")]).1) := by
  have h := C5_rounds_retry_subnets_and_sgs (fun r _ => decide (r = 0))
    (fun r _ => decide (r = 0)) 6 ["subnet-a"]
    [("openclaw-ec2-sg", "sg-9"), ("default", "sg-0")]
  refine ⟨h.1.1, ?_, ?_, ?_, ?_⟩
  · exact h.1.2.2.1 0 ["subnet-a"] ["subnet-a"] (by decide) (by decide)
      "subnet-a" (by decide) (by decide)
  · exact h.1.2.2.2 0 ["subnet-a"] (by decide) (by decide) (by decide) (by decide)
  · exact h.2.2.2.1 0 [("openclaw-ec2-sg", "sg-9")] [("openclaw-ec2-sg", "sg-9")]
      (by decide) (by decide) ("openclaw-ec2-sg", "sg-9") (by decide) (by decide)
  · exact h.2.2.2.2 0 [("openclaw-ec2-sg", "sg-9")] (by decide) (by decide)
      (by decide) (by decide)

/-- One remote call issued by `uninstaller.py` `delete_alb_and_target_group`. -/
inductive AlbEvent where
  | deleteListener (arn : String)
  | deleteLb
  | waitLbDeleted
  | deleteTargetGroup (arn : String)
deriving Repr, DecidableEq

/-- The listener-deletion loop of `delete_alb_and_target_group`:
`for listener in listeners: delete_listener(...)` inside a single `try`.
Each delete call is issued in order; a `ClientError` (raised at the first
listener where `listenerFails` holds) aborts the loop — the exception is
caught and logged outside the `for`, so later listeners get no call. -/
def listenerCalls (listenerFails : String → Bool) : List String → List AlbEvent
  | [] => []
  | l :: rest =>
    if listenerFails l then [AlbEvent.deleteListener l]
    else AlbEvent.deleteListener l :: listenerCalls listenerFails rest

/-- `uninstaller.py` `delete_alb_and_target_group` as the trace of remote
calls it issues.  `albArn` is the initial lookup's result (`none` when no
load balancer was found); `listeners` the described listeners;
`lbDeleteFails` whether `delete_load_balancer` raises a `ClientError` (in
which case the `waiter.wait` call in the same `try` block is skipped);
`tgs` the target groups found by the final describe (empty when the
describe raises `TargetGroupNotFound`).  When no load balancer exists, the
function still proceeds to the target-group describe-and-delete step. -/
def deleteAlbAndTargetGroup (albArn : Option String) (listeners : List String)
    (listenerFails : String → Bool) (lbDeleteFails : Bool) (tgs : List String) :
    List AlbEvent :=
  (match albArn with
   | none => []
   | some _ =>
     listenerCalls listenerFails listeners
       ++ [AlbEvent.deleteLb]
       ++ (if lbDeleteFails then [] else [AlbEvent.waitLbDeleted]))
  ++ tgs.map (fun t => AlbEvent.deleteTargetGroup t)

theorem listenerCalls_shape (f : String → Bool) :
    ∀ ls, ∀ e ∈ listenerCalls f ls, ∃ l, e = AlbEvent.deleteListener l := by
  intro ls
  induction ls with
  | nil => intro e he; simp [listenerCalls] at he
  | cons l rest ih =>
    intro e he
    simp only [listenerCalls] at he
    by_cases hf : f l
    · rw [if_pos hf] at he
      simp at he
      exact ⟨l, he⟩
    · rw [if_neg hf] at he
      rcases List.mem_cons.mp he with h | h
      · exact ⟨l, h⟩
      · exact ih e h

/-- C6: in every execution of `delete_alb_and_target_group` in which a
load balancer exists, every listener-delete call precedes the
load-balancer delete call and no target-group delete call precedes it;
and whenever the load-balancer delete call succeeds, the explicit wait for
the load balancer's full deletion is issued, and no target-group delete
call is issued before that wait has completed. -/
theorem C6_alb_teardown_order (albArn : Option String) (listeners : List String)
    (listenerFails : String → Bool) (lbDeleteFails : Bool) (tgs : List String) :
    (∀ arn, albArn = some arn →
      ∃ pre post,
        deleteAlbAndTargetGroup albArn listeners listenerFails lbDeleteFails tgs
          = pre ++ AlbEvent.deleteLb :: post ∧
        (∀ e ∈ post, ∀ l, e ≠ AlbEvent.deleteListener l) ∧
        (∀ e ∈ pre, ∀ t, e ≠ AlbEvent.deleteTargetGroup t)) ∧
    (∀ arn, albArn = some arn → lbDeleteFails = false →
      ∃ pre post,
        deleteAlbAndTargetGroup albArn listeners listenerFails lbDeleteFails tgs
          = pre ++ AlbEvent.waitLbDeleted :: post ∧
        (∀ e ∈ pre, ∀ t, e ≠ AlbEvent.deleteTargetGroup t)) := by
  constructor
  · intro arn harn
    refine ⟨listenerCalls listenerFails listeners,
      (if lbDeleteFails then [] else [AlbEvent.waitLbDeleted])
        ++ tgs.map (fun t => AlbEvent.deleteTargetGroup t), ?_, ?_, ?_⟩
    · rw [harn]
      simp [deleteAlbAndTargetGroup]
    · intro e he l
      rcases List.mem_append.mp he with h | h
      · split at h <;> simp_all
      · obtain ⟨t, _, ht⟩ := List.mem_map.mp h
        rw [← ht]
        simp
    · intro e he t
      obtain ⟨l, hl⟩ := listenerCalls_shape listenerFails listeners e he
      rw [hl]
      simp
  · intro arn harn hfail
    refine ⟨listenerCalls listenerFails listeners ++ [AlbEvent.deleteLb],
      tgs.map (fun t => AlbEvent.deleteTargetGroup t), ?_, ?_⟩
    · rw [harn, hfail]
      simp [deleteAlbAndTargetGroup]
    · intro e he t
      rcases List.mem_append.mp he with h | h
      · obtain ⟨l, hl⟩ := listenerCalls_shape listenerFails listeners e h
        rw [hl]
        simp
      · simp at h
        rw [h]
        simp

/-- Witness for C6: a load balancer with two listeners, a successful
load-balancer delete, and one target group. -/
theorem C6_alb_teardown_order_witness :
    (∃ pre post,
      deleteAlbAndTargetGroup (some "alb-1") ["lsn-1", "lsn-2"] (fun _ => false)
          false ["tg-1"]
        = pre ++ AlbEvent.deleteLb :: post ∧
      (∀ e ∈ post, ∀ l, e ≠ AlbEvent.deleteListener l) ∧
      (∀ e ∈ pre, ∀ t, e ≠ AlbEvent.deleteTargetGroup t)) ∧
    (∃ pre post,
      deleteAlbAndTargetGroup (some "alb-1") ["lsn-1", "lsn-2"] (fun _ => false)
          false ["tg-1"]
        = pre ++ AlbEvent.waitLbDeleted :: post ∧
      (∀ e ∈ pre, ∀ t, e ≠ AlbEvent.deleteTargetGroup t)) := by
  have h := C6_alb_teardown_order (some "alb-1") ["lsn-1", "lsn-2"] (fun _ => false)
    false ["tg-1"]
  exact ⟨h.1 "alb-1" rfl, h.2 "alb-1" rfl rfl⟩

/-- `installer.py` `Installer._pick_cidr`: return `all_sn[preferred_idx]`
when the index is in range and that sub-range is not in `existing`, else
the first sub-range (in order) not in `existing`, else `None`. -/
def pickCidr (allSn existing : List String) (preferredIdx : Nat) : Option String :=
  match allSn.get? preferredIdx with
  | some c =>
    if !(existing.contains c) then some c
    else allSn.find? (fun d => !(existing.contains d))
  | none => allSn.find? (fun d => !(existing.contains d))

/-- Outcome of one `create_subnet` call, as classified by the `except`
clause of `installer.py` `_create_subnets`: success with the new subnet
id, a CIDR-collision `ClientError` (`InvalidSubnet.Overlap` /
`InvalidSubnet.Range`), or any other `ClientError`. -/
inductive CreateSubnetOutcome where
  | ok (sid : String)
  | overlap
  | range
  | fatal (code : String)
deriving Repr, DecidableEq

/-- `installer.py` `_create_subnets` main loop: `for i in range(count)`,
pick a CIDR with `_pick_cidr` (log and `continue` when none is available),
then `create_subnet` — `create i c` is what that call does at iteration
`i` for CIDR `c`.  On success the CIDR is added to `existing_cidrs` and
the new subnet id collected (the AZ choice, tagging, `_wait_subnet`,
public-IP mapping and route-table association do not affect CIDR selection
or error classification and are not tracked); a collision error logs,
skips that sub-range and continues; any other `ClientError` re-raises.
Returns the created subnet ids together with the final `existing_cidrs`. -/
def createSubnetsGo (create : Nat → String → CreateSubnetOutcome)
    (allSn : List String) (offset : Nat) :
    Nat → Nat → List String → PyResult (List String × List String)
  | 0, _, existing => .ok ([], existing)
  | n + 1, i, existing =>
    match pickCidr allSn existing (offset + i) with
    | none => createSubnetsGo create allSn offset n (i + 1) existing
    | some c =>
      match create i c with
      | .ok sid =>
        match createSubnetsGo create allSn offset n (i + 1) (existing ++ [c]) with
        | .ok (rest, ex) => .ok (sid :: rest, ex)
        | .err e => .err e
      | .overlap => createSubnetsGo create allSn offset n (i + 1) existing
      | .range => createSubnetsGo create allSn offset n (i + 1) existing
      | .fatal code => .err code

/-- `installer.py` `_create_subnets` entry point (`count` iterations,
iteration counter starting at 0). -/
def createSubnets (create : Nat → String → CreateSubnetOutcome)
    (allSn : List String) (offset count : Nat) (existing : List String) :
    PyResult (List String × List String) :=
  createSubnetsGo create allSn offset count 0 existing

theorem createSubnetsGo_no_fatal (create : Nat → String → CreateSubnetOutcome)
    (allSn : List String) (offset : Nat)
    (h : ∀ i c code, create i c ≠ .fatal code) :
    ∀ n i existing, ∃ res,
      createSubnetsGo create allSn offset n i existing = .ok res := by
  intro n
  induction n with
  | zero => intro i existing; exact ⟨([], existing), rfl⟩
  | succ k ih =>
    intro i existing
    simp only [createSubnetsGo]
    cases hp : pickCidr allSn existing (offset + i) with
    | none => dsimp only; exact ih (i + 1) existing
    | some c =>
      dsimp only
      cases hcr : create i c with
      | ok sid =>
        dsimp only
        obtain ⟨⟨rest, ex⟩, hres⟩ := ih (i + 1) (existing ++ [c])
        rw [hres]
        exact ⟨(sid :: rest, ex), rfl⟩
      | overlap => dsimp only; exact ih (i + 1) existing
      | range => dsimp only; exact ih (i + 1) existing
      | fatal code => exact absurd hcr (h i c code)

/-- C7: `_pick_cidr` implements preferred-offset-with-first-free-fallback —
it returns the sub-range at the preferred offset whenever that sub-range is
free, otherwise the first free sub-range in order, and returns `None`
exactly when every sub-range is already used; and `_create_subnets` treats
a remote CIDR-collision error as skip-and-continue: as long as no creation
call fails with a non-collision error, the loop never aborts. -/
theorem C7_cidr_pick_and_collision_skip (allSn existing : List String)
    (preferredIdx : Nat) (create : Nat → String → CreateSubnetOutcome)
    (offset count : Nat) :
    (∀ c, allSn.get? preferredIdx = some c → c ∉ existing →
      pickCidr allSn existing preferredIdx = some c) ∧
    (∀ c, allSn.get? preferredIdx = some c → c ∈ existing →
      pickCidr allSn existing preferredIdx
        = allSn.find? (fun d => !(existing.contains d))) ∧
    (allSn.length ≤ preferredIdx →
      pickCidr allSn existing preferredIdx
        = allSn.find? (fun d => !(existing.contains d))) ∧
    (pickCidr allSn existing preferredIdx = none ↔
      ∀ c ∈ allSn, c ∈ existing) ∧
    ((∀ i c code, create i c ≠ .fatal code) →
      ∃ res, createSubnets create allSn offset count existing = .ok res) := by
  refine ⟨?_, ?_, ?_, ?_, ?_⟩
  · intro c hc hfree
    simp only [pickCidr]
    rw [hc]
    simp [hfree]
  · intro c hc hused
    simp only [pickCidr]
    rw [hc]
    simp [hused]
  · intro hlen
    have hg : allSn.get? preferredIdx = none := List.get?_eq_none.mpr hlen
    simp only [pickCidr]
    rw [hg]
  · cases hg : allSn.get? preferredIdx with
    | none =>
      simp only [pickCidr]
      rw [hg]
      dsimp only
      rw [List.find?_eq_none]
      constructor
      · intro hall c hmem
        simpa using hall c hmem
      · intro hall c hmem
        simpa using hall c hmem
    | some c =>
      have hmemc : c ∈ allSn := List.get?_mem hg
      simp only [pickCidr]
      rw [hg]
      dsimp only
      by_cases hfree : c ∈ existing
      · rw [if_neg (by simpa using hfree)]
        rw [List.find?_eq_none]
        constructor
        · intro hall d hmem
          simpa using hall d hmem
        · intro hall d hmem
          simpa using hall d hmem
      · rw [if_pos (by simpa using hfree)]
        constructor
        · intro hnone
          exact absurd hnone (by simp)
        · intro hall
          exact absurd (hall c hmemc) hfree
  · intro hnf
    exact createSubnetsGo_no_fatal create allSn offset hnf count 0 existing

/-- Witness for C7: four sub-ranges with the preferred offsets free, used,
and out of range; and a creation oracle that reports a collision on one
CIDR and succeeds elsewhere. -/
theorem C7_cidr_pick_and_collision_skip_witness :
    pickCidr ["10.20.0.0/24", "10.20.1.0/24", "10.20.2.0/24"] ["10.20.0.0/24"] 1
      = some "10.20.1.0/24" ∧
    pickCidr ["10.20.0.0/24", "10.20.1.0/24", "10.20.2.0/24"] ["10.20.0.0/24"] 0
      = some "10.20.1.0/24" ∧
    pickCidr ["10.20.0.0/24", "10.20.1.0/24", "10.20.2.0/24"] ["10.20.0.0/24"] 7
      = some "10.20.1.0/24" ∧
    (pickCidr ["10.20.0.0/24"] ["10.20.0.0/24"] 0 = none ↔
      ∀ c ∈ ["10.20.0.0/24"], c ∈ (["10.20.0.0/24"] : List String)) ∧
    (∃ res, createSubnets
      (fun _ c => if c = "10.20.0.0/24" then CreateSubnetOutcome.overlap
                  else CreateSubnetOutcome.ok ("subnet-" ++ c))
      ["10.20.0.0/24", "10.20.1.0/24", "10.20.2.0/24"] 0 2 [] = .ok res) := by
  refine ⟨?_, ?_, ?_, ?_, ?_⟩
  · exact (C7_cidr_pick_and_collision_skip
      ["10.20.0.0/24", "10.20.1.0/24", "10.20.2.0/24"] ["10.20.0.0/24"] 1
      (fun _ _ => CreateSubnetOutcome.overlap) 0 0).1 "10.20.1.0/24" (by decide) (by decide)
  · have := (C7_cidr_pick_and_collision_skip
      ["10.20.0.0/24", "10.20.1.0/24", "10.20.2.0/24"] ["10.20.0.0/24"] 0
      (fun _ _ => CreateSubnetOutcome.overlap) 0 0).2.1 "10.20.0.0/24" (by decide) (by decide)
    rw [this]
    decide
  · have := (C7_cidr_pick_and_collision_skip
      ["10.20.0.0/24", "10.20.1.0/24", "10.20.2.0/24"] ["10.20.0.0/24"] 7
      (fun _ _ => CreateSubnetOutcome.overlap) 0 0).2.2.1 (by decide)
    rw [this]
    decide
  · exact (C7_cidr_pick_and_collision_skip
      ["10.20.0.0/24"] ["10.20.0.0/24"] 0
      (fun _ _ => CreateSubnetOutcome.overlap) 0 0).2.2.2.1
  · refine (C7_cidr_pick_and_collision_skip
      ["10.20.0.0/24", "10.20.1.0/24", "10.20.2.0/24"] [] 0
      (fun _ c => if c = "10.20.0.0/24" then CreateSubnetOutcome.overlap
                  else CreateSubnetOutcome.ok ("subnet-" ++ c)) 0 2).2.2.2.2 ?_
    intro i c code
    by_cases hc : c = "10.20.0.0/24" <;> simp [hc]

/-- Python prefix test `hay.startswith(needle)` over character lists:
`charsStart needle hay` is true iff `needle` is an initial segment of
`hay`. -/
def charsStart (needle hay : List Char) : Bool :=
  match needle, hay with
  | [], _ => true
  | _ :: _, [] => false
  | n :: ns, h :: hs => n == h && charsStart ns hs

/-- Python substring test `needle in hay` over character lists. -/
def charsHave (needle hay : List Char) : Bool :=
  match hay with
  | [] => charsStart needle []
  | c :: hs => charsStart needle (c :: hs) || charsHave needle hs

/-- Python `str.lower` on one character (ASCII; the names at issue are
ASCII tag values). -/
def lowerChar (c : Char) : Char :=
  if 65 ≤ c.toNat ∧ c.toNat ≤ 90 then Char.ofNat (c.toNat + 32) else c

/-- Python `str.lower`. -/
def strLower (s : String) : String :=
  String.mk (s.data.map lowerChar)

/-- Python `needle in hay`. -/
def strIn (needle hay : String) : Bool :=
  charsHave needle.data hay.data

/-- Python `s.startswith(p)`. -/
def strStarts (s p : String) : Bool :=
  charsStart p.data s.data

/-- A subnet of an existing fabric as seen by `installer.py`
`_classify_subnets`: its id, its tags, and the outcome of the
`describe_route_tables` lookup filtered by association to this subnet —
`none` models the lookup raising an exception; otherwise the list of route
tables, each given as the list of its routes' `GatewayId` values
(`r.get("GatewayId", "")`). -/
structure SubnetInfo where
  subnetId : String
  tags : List (String × String)
  routeLookup : Option (List (List String))
deriving Repr, DecidableEq

/-- The `Name`-tag extraction loop of `_classify_subnets`: iterate the
tags in order, remembering the value of the last tag whose key is `Name`
(empty string when there is none). -/
def subnetNameTag (tags : List (String × String)) : String :=
  tags.foldl (fun acc t => if t.1 = "Name" then t.2 else acc) ""

/-- The per-subnet rule of `_classify_subnets` (`true` = public):
`"public"` in the lowercased name wins; else `"private"` in it → private;
else public iff some route of some associated route table has a
`GatewayId` starting with `"igw-"`; a failing route lookup → private. -/
def classifyOne (s : SubnetInfo) : Bool :=
  let name := strLower (subnetNameTag s.tags)
  if strIn "public" name then true
  else if strIn "private" name then false
  else
    match s.routeLookup with
    | some rts => rts.any (fun rt => rt.any (fun g => strStarts g "igw-"))
    | none => false

/-- `installer.py` `_classify_subnets`: fold over the subnets in order,
appending each subnet's id to the public or to the private list according
to `classifyOne`. -/
def classifySubnets (subs : List SubnetInfo) : List String × List String :=
  subs.foldl
    (fun acc s =>
      if classifyOne s then (acc.1 ++ [s.subnetId], acc.2)
      else (acc.1, acc.2 ++ [s.subnetId]))
    ([], [])

theorem classifySubnets_foldl (subs : List SubnetInfo) :
    ∀ acc : List String × List String,
      subs.foldl
        (fun acc s =>
          if classifyOne s then (acc.1 ++ [s.subnetId], acc.2)
          else (acc.1, acc.2 ++ [s.subnetId])) acc
      = (acc.1 ++ (subs.filter (fun s => classifyOne s)).map (fun s => s.subnetId),
         acc.2 ++ (subs.filter (fun s => !(classifyOne s))).map (fun s => s.subnetId)) := by
  induction subs with
  | nil => intro acc; simp
  | cons s rest ih =>
    intro acc
    simp only [List.foldl_cons]
    by_cases h : classifyOne s
    · rw [if_pos h, ih]
      simp [List.filter_cons, h]
    · rw [if_neg h, ih]
      simp [List.filter_cons, h]

theorem length_filter_pos_add_neg {α : Type} (p : α → Bool) (l : List α) :
    (l.filter p).length + (l.filter (fun a => !(p a))).length = l.length := by
  induction l with
  | nil => rfl
  | cons a t ih =>
    by_cases h : p a
    · simp only [List.filter_cons, h]
      simp [ih]
      omega
    · rw [Bool.not_eq_true] at h
      simp only [List.filter_cons, h]
      simp [ih]
      omega

/-- C8: `_classify_subnets` places every subnet in exactly one of the two
classes — the public list is exactly the ids of the subnets satisfying the
classification rule and the private list exactly the ids of the others, so
the two lengths sum to the number of subnets — and the rule is: the
tag-name heuristic decides first (`"public"` in the lowercased name wins,
then `"private"`); a subnet decided by neither is public iff some route of
its associated route tables has a gateway id starting with `"igw-"`; and a
subnet whose route lookup fails is private. -/
theorem C8_classify_subnets_partition (subs : List SubnetInfo) :
    ((classifySubnets subs).1
        = (subs.filter (fun s => classifyOne s)).map (fun s => s.subnetId) ∧
      (classifySubnets subs).2
        = (subs.filter (fun s => !(classifyOne s))).map (fun s => s.subnetId) ∧
      (classifySubnets subs).1.length + (classifySubnets subs).2.length
        = subs.length) ∧
    (∀ s ∈ subs,
      strIn "public" (strLower (subnetNameTag s.tags)) = true →
      s.subnetId ∈ (classifySubnets subs).1) ∧
    (∀ s ∈ subs,
      strIn "public" (strLower (subnetNameTag s.tags)) = false →
      strIn "private" (strLower (subnetNameTag s.tags)) = true →
      s.subnetId ∈ (classifySubnets subs).2) ∧
    (∀ s ∈ subs, ∀ rts,
      strIn "public" (strLower (subnetNameTag s.tags)) = false →
      strIn "private" (strLower (subnetNameTag s.tags)) = false →
      s.routeLookup = some rts →
      (rts.any (fun rt => rt.any (fun g => strStarts g "igw-"))) = true →
      s.subnetId ∈ (classifySubnets subs).1) ∧
    (∀ s ∈ subs, ∀ rts,
      strIn "public" (strLower (subnetNameTag s.tags)) = false →
      strIn "private" (strLower (subnetNameTag s.tags)) = false →
      s.routeLookup = some rts →
      (rts.any (fun rt => rt.any (fun g => strStarts g "igw-"))) = false →
      s.subnetId ∈ (classifySubnets subs).2) ∧
    (∀ s ∈ subs,
      strIn "public" (strLower (subnetNameTag s.tags)) = false →
      strIn "private" (strLower (subnetNameTag s.tags)) = false →
      s.routeLookup = none →
      s.subnetId ∈ (classifySubnets subs).2) := by
  have hpub : (classifySubnets subs).1
      = (subs.filter (fun s => classifyOne s)).map (fun s => s.subnetId) := by
    rw [classifySubnets, classifySubnets_foldl subs ([], [])]
    simp
  have hpriv : (classifySubnets subs).2
      = (subs.filter (fun s => !(classifyOne s))).map (fun s => s.subnetId) := by
    rw [classifySubnets, classifySubnets_foldl subs ([], [])]
    simp
  have hmempub : ∀ s ∈ subs, classifyOne s = true →
      s.subnetId ∈ (classifySubnets subs).1 := by
    intro s hs hc
    rw [hpub]
    exact List.mem_map.mpr ⟨s, List.mem_filter.mpr ⟨hs, hc⟩, rfl⟩
  have hmempriv : ∀ s ∈ subs, classifyOne s = false →
      s.subnetId ∈ (classifySubnets subs).2 := by
    intro s hs hc
    rw [hpriv]
    exact List.mem_map.mpr ⟨s, List.mem_filter.mpr ⟨hs, by simp [hc]⟩, rfl⟩
  refine ⟨⟨hpub, hpriv, ?_⟩, ?_, ?_, ?_, ?_, ?_⟩
  · rw [hpub, hpriv]
    simp only [List.length_map]
    exact length_filter_pos_add_neg _ subs
  · intro s hs hname
    exact hmempub s hs (by simp [classifyOne, hname])
  · intro s hs hnopub hname
    exact hmempriv s hs (by simp [classifyOne, hnopub, hname])
  · intro s hs rts hnopub hnopriv hrt hany
    exact hmempub s hs (by simp [classifyOne, hnopub, hnopriv, hrt, hany])
  · intro s hs rts hnopub hnopriv hrt hany
    exact hmempriv s hs (by simp [classifyOne, hnopub, hnopriv, hrt, hany])
  · intro s hs hnopub hnopriv hrt
    exact hmempriv s hs (by simp [classifyOne, hnopub, hnopriv, hrt])

/-- Witness for C8: five subnets exercising every rule — a `Public`-named
tag, a `private`-named tag, no name but an internet-gateway route, no name
and only local routes, and a failing route lookup. -/
theorem C8_classify_subnets_partition_witness :
    "s-pub" ∈ (classifySubnets
      [⟨"s-pub", [("Name", "Public-Subnet-1")], some []⟩,
       ⟨"s-priv", [("Name", "private-subnet")], some []⟩,
       ⟨"s-igw", [], some [["", "igw-12345"]]⟩,
       ⟨"s-local", [], some [["local"]]⟩,
       ⟨"s-err", [], none⟩]).1 ∧
    "s-priv" ∈ (classifySubnets
      [⟨"s-pub", [("Name", "Public-Subnet-1")], some []⟩,
       ⟨"s-priv", [("Name", "private-subnet")], some []⟩,
       ⟨"s-igw", [], some [["", "igw-12345"]]⟩,
       ⟨"s-local", [], some [["local"]]⟩,
       ⟨"s-err", [], none⟩]).2 ∧
    "s-igw" ∈ (classifySubnets
      [⟨"s-pub", [("Name", "Public-Subnet-1")], some []⟩,
       ⟨"s-priv", [("Name", "private-subnet")], some []⟩,
       ⟨"s-igw", [], some [["", "igw-12345"]]⟩,
       ⟨"s-local", [], some [["local"]]⟩,
       ⟨"s-err", [], none⟩]).1 ∧
    "s-local" ∈ (classifySubnets
      [⟨"s-pub", [("Name", "Public-Subnet-1")], some []⟩,
       ⟨"s-priv", [("Name", "private-subnet")], some []⟩,
       ⟨"s-igw", [], some [["", "igw-12345"]]⟩,
       ⟨"s-local", [], some [["local"]]⟩,
       ⟨"s-err", [], none⟩]).2 ∧
    "s-err" ∈ (classifySubnets
      [⟨"s-pub", [("Name", "Public-Subnet-1")], some []⟩,
       ⟨"s-priv", [("Name", "private-subnet")], some []⟩,
       ⟨"s-igw", [], some [["", "igw-12345"]]⟩,
       ⟨"s-local", [], some [["local"]]⟩,
       ⟨"s-err", [], none⟩]).2 ∧
    (classifySubnets
      [⟨"s-pub", [("Name", "Public-Subnet-1")], some []⟩,
       ⟨"s-priv", [("Name", "private-subnet")], some []⟩,
       ⟨"s-igw", [], some [["", "igw-12345"]]⟩,
       ⟨"s-local", [], some [["local"]]⟩,
       ⟨"s-err", [], none⟩]).1.length +
    (classifySubnets
      [⟨"s-pub", [("Name", "Public-Subnet-1")], some []⟩,
       ⟨"s-priv", [("Name", "private-subnet")], some []⟩,
       ⟨"s-igw", [], some [["", "igw-12345"]]⟩,
       ⟨"s-local", [], some [["local"]]⟩,
       ⟨"s-err", [], none⟩]).2.length = 5 := by
  have h := C8_classify_subnets_partition
    [⟨"s-pub", [("Name", "Public-Subnet-1")], some []⟩,
     ⟨"s-priv", [("Name", "private-subnet")], some []⟩,
     ⟨"s-igw", [], some [["", "igw-12345"]]⟩,
     ⟨"s-local", [], some [["local"]]⟩,
     ⟨"s-err", [], none⟩]
  refine ⟨?_, ?_, ?_, ?_, ?_, ?_⟩
  · exact h.2.1 ⟨"s-pub", [("Name", "Public-Subnet-1")], some []⟩ (by decide) (by decide)
  · exact h.2.2.1 ⟨"s-priv", [("Name", "private-subnet")], some []⟩ (by decide)
      (by decide) (by decide)
  · exact h.2.2.2.1 ⟨"s-igw", [], some [["", "igw-12345"]]⟩ (by decide)
      [["", "igw-12345"]] (by decide) (by decide) (by decide) (by decide)
  · exact h.2.2.2.2.1 ⟨"s-local", [], some [["local"]]⟩ (by decide)
      [["local"]] (by decide) (by decide) (by decide) (by decide)
  · exact h.2.2.2.2.2 ⟨"s-err", [], none⟩ (by decide) (by decide) (by decide) (by decide)
  · exact h.1.2.2

/-- `installer.py` `_ensure_iam` propagation wait:
`for attempt in range(20)` call `get_instance_profile` — `reads attempt`
is `none` when the call raises a `ClientError` (swallowed by the
`except ... pass`) and `some roles` when it returns the listed role names
— and `break` as soon as `attempt >= 5` and the project role is among
them; otherwise sleep 2 seconds and poll again.  Returns the attempt index
at which the loop broke (`none` when it was exhausted) together with the
number of reads performed. -/
def iamWaitGo (reads : Nat → Option (List String)) (roleName : String) :
    Nat → Nat → Option Nat × Nat
  | 0, attempt => (none, attempt)
  | fuel + 1, attempt =>
    match reads attempt with
    | some roles =>
      if 5 ≤ attempt ∧ roles.contains roleName then (some attempt, attempt + 1)
      else iamWaitGo reads roleName fuel (attempt + 1)
    | none => iamWaitGo reads roleName fuel (attempt + 1)

/-- `_ensure_iam` propagation-wait entry point: 20 attempts, 0-based. -/
def iamWait (reads : Nat → Option (List String)) (roleName : String) :
    Option Nat × Nat :=
  iamWaitGo reads roleName 20 0

theorem iamWaitGo_polls_le (reads : Nat → Option (List String)) (roleName : String) :
    ∀ fuel attempt, (iamWaitGo reads roleName fuel attempt).2 ≤ attempt + fuel := by
  intro fuel
  induction fuel with
  | zero => intro attempt; simp [iamWaitGo]
  | succ f ih =>
    intro attempt
    cases h : reads attempt with
    | some roles =>
      simp only [iamWaitGo, h]
      split
      · dsimp only
        omega
      · have := ih (attempt + 1)
        omega
    | none =>
      simp only [iamWaitGo, h]
      have := ih (attempt + 1)
      omega

theorem iamWaitGo_some (reads : Nat → Option (List String)) (roleName : String) :
    ∀ fuel attempt k, (iamWaitGo reads roleName fuel attempt).1 = some k →
      5 ≤ k ∧ attempt ≤ k ∧ k < attempt + fuel ∧
      ∃ roles, reads k = some roles ∧ roles.contains roleName = true := by
  intro fuel
  induction fuel with
  | zero => intro attempt k h; simp [iamWaitGo] at h
  | succ f ih =>
    intro attempt k h
    cases hr : reads attempt with
    | some roles =>
      simp only [iamWaitGo, hr] at h
      by_cases hc : 5 ≤ attempt ∧ roles.contains roleName
      · rw [if_pos hc] at h
        simp at h
        refine ⟨by omega, by omega, by omega, roles, ?_, ?_⟩
        · rw [← h]; exact hr
        · exact hc.2
      · rw [if_neg hc] at h
        obtain ⟨h1, h2, h3, h4⟩ := ih (attempt + 1) k h
        exact ⟨h1, by omega, by omega, h4⟩
    | none =>
      simp only [iamWaitGo, hr] at h
      obtain ⟨h1, h2, h3, h4⟩ := ih (attempt + 1) k h
      exact ⟨h1, by omega, by omega, h4⟩

theorem iamWaitGo_none (reads : Nat → Option (List String)) (roleName : String) :
    ∀ fuel attempt, (iamWaitGo reads roleName fuel attempt).1 = none →
      (iamWaitGo reads roleName fuel attempt).2 = attempt + fuel := by
  intro fuel
  induction fuel with
  | zero => intro attempt _; simp [iamWaitGo]
  | succ f ih =>
    intro attempt h
    cases hr : reads attempt with
    | some roles =>
      simp only [iamWaitGo, hr] at h ⊢
      by_cases hc : 5 ≤ attempt ∧ roles.contains roleName
      · rw [if_pos hc] at h
        simp at h
      · rw [if_neg hc] at h ⊢
        have := ih (attempt + 1) h
        omega
    | none =>
      simp only [iamWaitGo, hr] at h ⊢
      have := ih (attempt + 1) h
      omega

/-- C9: the identity-profile propagation wait never succeeds before the
minimum attempt count — whenever the loop exits via its success condition
at attempt `k`, then `5 ≤ k` (so at least six reads were performed, even
if the role is attached and visible from the very first read), `k` is
within the fixed 20-attempt bound, and the read at attempt `k` showed the
project role attached; the loop performs at most 20 reads, and when it
never succeeds it performs exactly 20. -/
theorem C9_iam_wait_minimum_attempts (reads : Nat → Option (List String))
    (roleName : String) :
    (∀ k, (iamWait reads roleName).1 = some k →
      5 ≤ k ∧ k < 20 ∧
      ∃ roles, reads k = some roles ∧ roles.contains roleName = true) ∧
    (iamWait reads roleName).2 ≤ 20 ∧
    ((iamWait reads roleName).1 = none → (iamWait reads roleName).2 = 20) := by
  refine ⟨?_, ?_, ?_⟩
  · intro k h
    obtain ⟨h1, _, h3, h4⟩ := iamWaitGo_some reads roleName 20 0 k h
    exact ⟨h1, by omega, h4⟩
  · have := iamWaitGo_polls_le reads roleName 20 0
    simpa [iamWait] using this
  · intro h
    have := iamWaitGo_none reads roleName 20 0 h
    simpa [iamWait] using this

/-- Witness for C9: a profile whose role attachment is visible from the
very first read — the loop still exits only at attempt index 5 (its sixth
read); and a profile whose role never shows — the loop performs exactly
its 20 bounded reads. -/
theorem C9_iam_wait_minimum_attempts_witness :
    iamWait (fun _ => some ["openclaw-bedrock-role"]) "openclaw-bedrock-role"
      = (some 5, 6) ∧
    (5 ≤ 5 ∧ 5 < 20 ∧
      ∃ roles, (fun _ => some ["openclaw-bedrock-role"]) 5 = some roles ∧
        roles.contains "openclaw-bedrock-role" = true) ∧
    iamWait (fun _ => some []) "openclaw-bedrock-role" = (none, 20) := by
  refine ⟨by decide, ?_, by decide⟩
  exact (C9_iam_wait_minimum_attempts (fun _ => some ["openclaw-bedrock-role"])
    "openclaw-bedrock-role").1 5 (by decide)

/-- One IAM mutation issued by the profile-role convergence step of
`_ensure_iam`. -/
inductive ProfileOp where
  | removeRole (name : String)
  | addRole (name : String)
deriving Repr, DecidableEq

/-- `installer.py` `_ensure_iam`, profile-role convergence: read the
instance profile's attached role names; when the project role is not among
them, remove every attached role (`remove_role_from_instance_profile` for
each, in the order read) and then add the project role; when it is, issue
no mutation.  Returns the ops issued in order and the profile's resulting
role set. -/
def ensureProfileRoles (existingRoles : List String) (roleName : String) :
    List ProfileOp × List String :=
  if existingRoles.contains roleName then ([], existingRoles)
  else
    (existingRoles.map (fun r => ProfileOp.removeRole r)
        ++ [ProfileOp.addRole roleName],
      [roleName])

/-- C10: when the instance profile exists but its attached role set does
not contain the project role, the convergence step removes every currently
attached role and then attaches the project role, leaving the profile's
role set exactly the singleton project role — reuse is not mutation-free
and discards foreign attachments; when the project role is already
attached, nothing is mutated. -/
theorem C10_profile_role_reset (existingRoles : List String) (roleName : String) :
    (roleName ∉ existingRoles →
      (ensureProfileRoles existingRoles roleName).2 = [roleName] ∧
      (∀ r ∈ existingRoles,
        ProfileOp.removeRole r ∈ (ensureProfileRoles existingRoles roleName).1) ∧
      (ensureProfileRoles existingRoles roleName).1
        = existingRoles.map (fun r => ProfileOp.removeRole r)
            ++ [ProfileOp.addRole roleName]) ∧
    (roleName ∈ existingRoles →
      (ensureProfileRoles existingRoles roleName).1 = [] ∧
      (ensureProfileRoles existingRoles roleName).2 = existingRoles) := by
  constructor
  · intro hnot
    refine ⟨by simp [ensureProfileRoles, hnot], ?_, by simp [ensureProfileRoles, hnot]⟩
    intro r hr
    have hc : existingRoles.contains roleName = false := by simpa using hnot
    simp only [ensureProfileRoles, hc, Bool.false_eq_true, if_false]
    refine List.mem_append.mpr (Or.inl ?_)
    exact List.mem_map.mpr ⟨r, hr, rfl⟩
  · intro hin
    exact ⟨by simp [ensureProfileRoles, hin], by simp [ensureProfileRoles, hin]⟩

/-- Witness for C10: a profile carrying one foreign role and not the
project role — the step removes the foreign role, adds the project role,
and leaves exactly the singleton; and an already-correct profile is left
untouched. -/
theorem C10_profile_role_reset_witness :
    (ensureProfileRoles ["foreign-role"] "openclaw-bedrock-role").2
      = ["openclaw-bedrock-role"] ∧
    ProfileOp.removeRole "foreign-role"
      ∈ (ensureProfileRoles ["foreign-role"] "openclaw-bedrock-role").1 ∧
    (ensureProfileRoles ["foreign-role"] "openclaw-bedrock-role").1
      = [ProfileOp.removeRole "foreign-role",
         ProfileOp.addRole "openclaw-bedrock-role"] ∧
    (ensureProfileRoles ["openclaw-bedrock-role"] "openclaw-bedrock-role").1 = [] ∧
    (ensureProfileRoles ["openclaw-bedrock-role"] "openclaw-bedrock-role").2
      = ["openclaw-bedrock-role"] := by
  have h1 := (C10_profile_role_reset ["foreign-role"] "openclaw-bedrock-role").1
    (by decide)
  have h2 := (C10_profile_role_reset ["openclaw-bedrock-role"]
    "openclaw-bedrock-role").2 (by decide)
  exact ⟨h1.1, h1.2.1 "foreign-role" (by decide), by decide, h2.1, h2.2⟩

end OpenClaw
